import Mathlib

/-!
Verification of the job-hunt-helper extraction core (`src/lib/extractor.js`)
and its storage collaborator (`src/lib/storage.js`, snapshot
`src/unnamed/part_001`), as a shallow embedding in Lean.

Modelling conventions:
* JavaScript strings are modelled by `String`; `.toLowerCase()` by
  `jsToLower` (per-character `Char.toLower`, faithful for the ASCII
  keywords involved), `.trim()` by `jsTrim` (strips the whitespace
  characters recognised by `Char.isWhitespace`), `.includes(sub)` by
  `includesSub`, and `.length` by the character count `String.length`.
* The DOM is modelled by the capability interface `Doc`: `query sel`
  returns the `textContent` of the first element matching `sel` (or
  `none` when no element matches), and `queryAll sel` returns the matched
  elements (tag name plus `textContent`).  Both are `Except Unit`-valued
  so that a throwing document access ("hard fault") can be modelled; the
  `try/catch` wrappers of the extractors become `Except`-to-`Option`
  eliminations.
* `Array.prototype.sort`, which is required to be stable by the
  ECMAScript specification, is modelled by `List.mergeSort`.
* Wall-clock effects (`new Date().toISOString()`, `Date.now()`) are
  passed in as explicit parameters; `setTimeout` delays are irrelevant to
  the values computed and are not modelled beyond keeping the `delay`
  parameter.
* `console.*` logging and the log-only DEBUG scans of `extractLinkedIn`
  are omitted: they do not flow into any returned value.
-/

/-- JavaScript `String.prototype.toLowerCase`, modelled per character. -/
def jsToLower (s : String) : String :=
  ⟨s.data.map Char.toLower⟩

/-- JavaScript `String.prototype.trim`: strip leading and trailing
whitespace characters. -/
def jsTrim (s : String) : String :=
  ⟨((s.data.dropWhile Char.isWhitespace).reverse.dropWhile Char.isWhitespace).reverse⟩

/-- JavaScript `haystack.includes(needle)`: substring containment. -/
def includesSub (haystack needle : String) : Bool :=
  decide (needle.data <:+: haystack.data)

/-- JavaScript `text.split('\n').length`: one more than the number of
newline characters. -/
def lineCount (s : String) : Nat :=
  s.data.count '\n' + 1

/-- `JobExtractor._techKeywords` (src/lib/extractor.js lines 9-22): the
canonical technology-keyword list. -/
def techKeywords : List String :=
  ["JavaScript", "TypeScript", "Python", "Java", "C++", "C#", "Ruby", "Go", "Rust", "PHP", "Swift", "Kotlin",
   "React", "Vue", "Angular", "Svelte", "Next.js", "Nuxt", "HTML", "CSS", "Tailwind", "Bootstrap",
   "Node.js", "Express", "Django", "Flask", "FastAPI", "Spring", "Rails", "ASP.NET",
   "PostgreSQL", "MySQL", "MongoDB", "Redis", "Elasticsearch", "DynamoDB", "Cassandra",
   "AWS", "Azure", "GCP", "Docker", "Kubernetes", "Terraform", "Jenkins", "GitHub Actions",
   "GraphQL", "REST", "API", "Git", "Linux", "CI/CD", "Microservices", "Agile", "Scrum"]

/-- First-occurrence deduplication, the semantics of JavaScript
`[...new Set(array)]`: `seen` accumulates the elements already emitted. -/
def dedupFirstAux (seen : List String) : List String → List String
  | [] => []
  | x :: xs =>
    if x ∈ seen then dedupFirstAux seen xs
    else x :: dedupFirstAux (x :: seen) xs

/-- JavaScript `[...new Set(array)]`: drop duplicates, keeping the first
occurrence of each element. -/
def dedupFirst (l : List String) : List String :=
  dedupFirstAux [] l

/-- `JobExtractor.extractTechStack` (src/lib/extractor.js lines 439-454):
empty (falsy) input short-circuits to `[]`; otherwise each canonical
keyword whose lowercase form occurs in the lowercased text is collected in
canonical-list order, and duplicates are removed via a `Set`. -/
def extractTechStack (text : String) : List String :=
  if text = "" then []
  else
    dedupFirst (techKeywords.filter
      (fun k => includesSub (jsToLower text) (jsToLower k)))

theorem dedupFirstAux_eq_self (l : List String) :
    ∀ seen, l.Nodup → (∀ x ∈ l, x ∉ seen) → dedupFirstAux seen l = l := by
  induction l with
  | nil => intro seen _ _; rfl
  | cons x xs ih =>
    intro seen hnd hseen
    have hx : x ∉ seen := hseen x (List.mem_cons_self x xs)
    rw [dedupFirstAux, if_neg hx]
    congr 1
    obtain ⟨hxnot, hxs⟩ := List.nodup_cons.mp hnd
    apply ih (x :: seen) hxs
    intro y hy
    simp only [List.mem_cons]
    push_neg
    exact ⟨fun hyx => hxnot (hyx ▸ hy), hseen y (List.mem_cons_of_mem x hy)⟩

theorem techKeywords_nodup : techKeywords.Nodup := by decide

theorem extractTechStack_eq_filter (t : String) (h : t ≠ "") :
    extractTechStack t =
      techKeywords.filter (fun k => includesSub (jsToLower t) (jsToLower k)) := by
  rw [extractTechStack, if_neg h, dedupFirst]
  exact dedupFirstAux_eq_self _ [] (techKeywords_nodup.filter _) (by simp)

/-- C1: for every input text `t`, the keyword matcher returns a
duplicate-free sequence that is a sublist of the canonical keyword list
(hence every element is canonical and the elements appear in
canonical-list order, not input order), every returned name's lowercase
form is a substring of the lowercased input, and empty input yields the
empty sequence (so a JobRecord built with an empty description gets an
empty tech stack). -/
theorem extractTechStack_spec (t : String) :
    (extractTechStack t).Nodup ∧
    List.Sublist (extractTechStack t) techKeywords ∧
    (∀ k ∈ extractTechStack t, (jsToLower k).data <:+: (jsToLower t).data) ∧
    extractTechStack "" = [] := by
  by_cases h : t = ""
  · subst h
    refine ⟨by simp [extractTechStack], by simp [extractTechStack], ?_, rfl⟩
    intro k hk
    simp [extractTechStack] at hk
  · rw [extractTechStack_eq_filter t h]
    refine ⟨techKeywords_nodup.filter _, List.filter_sublist _, ?_, rfl⟩
    intro k hk
    have := List.of_mem_filter hk
    simpa [includesSub] using this

/-- C10: keyword extraction is monotone under (lowercased) substring
containment: every technology name detected in `t1` is detected in any
`t2` whose lowercased text contains the lowercased text of `t1`. -/
theorem extractTechStack_monotone (t1 t2 : String)
    (h : (jsToLower t1).data <:+: (jsToLower t2).data) :
    ∀ k ∈ extractTechStack t1, k ∈ extractTechStack t2 := by
  intro k hk
  by_cases h1 : t1 = ""
  · subst h1; simp [extractTechStack] at hk
  · rw [extractTechStack_eq_filter t1 h1] at hk
    have hmem := List.mem_of_mem_filter hk
    have hincl := List.of_mem_filter hk
    have hinf : (jsToLower k).data <:+: (jsToLower t1).data := by
      simpa [includesSub] using hincl
    have h2 : t2 ≠ "" := by
      intro h2
      subst h2
      have hnil : (jsToLower t1).data = [] :=
        List.eq_nil_of_infix_nil (by simpa [jsToLower] using h)
      have ht1 : t1.data = [] := by
        simpa [jsToLower, List.map_eq_nil_iff] using hnil
      exact h1 (String.ext ht1)
    rw [extractTechStack_eq_filter t2 h2]
    refine List.mem_filter_of_mem hmem ?_
    simp only [includesSub, decide_eq_true_eq]
    exact hinf.trans h

/-- Witness for C10 at a concrete pair of texts. -/
theorem extractTechStack_monotone_witness :
    "Python" ∈ extractTechStack "We use Python and AWS" :=
  extractTechStack_monotone "Python" "We use Python and AWS" (by decide)
    "Python" (by decide)

/-- The platform enumeration returned by `JobExtractor.detectPlatform`. -/
inductive Platform where
  | linkedin
  | greenhouse
  | lever
deriving DecidableEq, Repr

/-- The normalized job record produced by the extractors.  `extractedAt`
(`new Date().toISOString()`) is passed in as the explicit `now`
parameter of each extractor. -/
structure JobRecord where
  platform : Platform
  jobTitle : String
  company : String
  description : String
  location : String
  techStack : List String
  url : String
  extractedAt : String
deriving DecidableEq, Repr

/-- A DOM element as the extraction core observes it: its tag name
(upper-case, as `Element.tagName` reports it) and its `textContent`. -/
structure Elem where
  tag : String
  textContent : String
deriving DecidableEq, Repr

/-- The read-only document capability interface.  `query sel` models
`document.querySelector(sel)?.textContent` (`none` = no matching
element); `queryAll sel` models `document.querySelectorAll(sel)`.  The
`Except Unit` layer models a throwing document access (a hard fault). -/
structure Doc where
  query : String → Except Unit (Option String)
  queryAll : String → Except Unit (List Elem)

/-- `JobExtractor.detectPlatform` (src/lib/extractor.js lines 38-50):
first-match-wins substring rules over the current URL. -/
def detectPlatform (url : String) : Option Platform :=
  if includesSub url "linkedin.com/jobs" then some Platform.linkedin
  else if includesSub url "boards.greenhouse.io" then some Platform.greenhouse
  else if includesSub url "jobs.lever.co" then some Platform.lever
  else none

/-- `JobExtractor._trySelectors` (src/lib/extractor.js lines 58-68): try
the candidate selectors in order and return the first non-empty trimmed
text content; empty string when every candidate yields nothing.  The
`fieldName` argument is used only for logging in the source. -/
def _trySelectors (doc : Doc) (selectors : List String) (fieldName : String) :
    Except Unit String :=
  match selectors with
  | [] => Except.ok ""
  | sel :: rest => do
    let el ← doc.query sel
    match el with
    | some txt =>
      if jsTrim txt ≠ "" then Except.ok (jsTrim txt)
      else _trySelectors doc rest fieldName
    | none => _trySelectors doc rest fieldName

/-- The readiness probe set evaluated on each tick of
`JobExtractor.waitForLinkedInRender` (src/lib/extractor.js lines 81-89):
the page is ready when any of the five structural probes succeeds. -/
def probeSet (d : Doc) : Except Unit Bool := do
  let h1s ← d.queryAll "h1"
  let jobCard ← d.query ".jobs-unified-top-card, .job-details-jobs-unified-top-card, .jobs-details__main-content"
  let descr ← d.query ".jobs-description, .jobs-box__html-content, .show-more-less-html__markup, .jobs-description-content__text"
  let scaffold ← d.query ".scaffold-layout__detail, .scaffold-layout--reflow"
  let jobDetails ← d.query "[data-job-id]"
  Except.ok (decide (h1s.length > 0) || jobCard.isSome || descr.isSome ||
    scaffold.isSome || jobDetails.isSome)

/-- The polling loop of `JobExtractor.waitForLinkedInRender`
(src/lib/extractor.js lines 77-98), with `attempt` the current loop
counter.  The returned `Nat` instruments the model with the number of the
tick on which the loop stopped (the source only returns the `Bool`); on
exhaustion it equals `maxAttempts`.  The inter-tick `setTimeout` delay
does not affect the computed value and is not modelled. -/
def waitGo (docAt : Nat → Doc) (maxAttempts attempt : Nat) :
    Except Unit (Bool × Nat) :=
  if h : attempt > maxAttempts then Except.ok (false, maxAttempts)
  else do
    let ready ← probeSet (docAt attempt)
    if ready then Except.ok (true, attempt)
    else waitGo docAt maxAttempts (attempt + 1)
termination_by maxAttempts + 1 - attempt
decreasing_by simp_wf; omega

/-- `JobExtractor.waitForLinkedInRender` (src/lib/extractor.js lines
76-102).  `docAt i` is the live document as observed on tick `i`
(ticks are numbered from 1, like the source's `attempt` counter).  The
`delay` parameter (milliseconds between ticks) is kept for fidelity but
does not influence the result. -/
def waitForLinkedInRender (docAt : Nat → Doc) (maxAttempts delay : Nat) :
    Except Unit (Bool × Nat) :=
  waitGo docAt maxAttempts 1

/-- The LinkedIn job-title selector candidate list
(src/lib/extractor.js lines 180-207), in priority order. -/
def jobTitleSelectors : List String :=
  [".job-details-jobs-unified-top-card__job-title h1",
   ".jobs-unified-top-card__job-title h1",
   "h1.job-details-jobs-unified-top-card__job-title",
   "h1.jobs-unified-top-card__job-title",
   ".scaffold-layout__detail h1",
   ".jobs-details__main-content h1",
   "h1.top-card-layout__title",
   "h1.topcard__title",
   ".jobs-unified-top-card__job-title",
   ".job-details-jobs-unified-top-card__job-title",
   "h1.t-24.t-bold.inline",
   "h1.t-24.t-bold",
   "h1.t-20",
   "h1[data-test-job-title]",
   "h1[class*=\"job-title\"]",
   "h1[class*=\"topcard\"]",
   ".jobs-details h1",
   ".job-view-layout h1",
   "main h1",
   "h1"]

/-- The LinkedIn company selector candidate list
(src/lib/extractor.js lines 209-222). -/
def companySelectors : List String :=
  [".job-details-jobs-unified-top-card__company-name a",
   ".jobs-unified-top-card__company-name a",
   "a.app-aware-link[href*=\"/company/\"]",
   ".topcard__org-name-link",
   ".topcard__flavor-row a",
   ".jobs-unified-top-card__company-name",
   ".job-details-jobs-unified-top-card__company-name",
   "a[data-tracking-control-name=\"public_jobs_topcard-org-name\"]",
   ".jobs-unified-top-card__subtitle-primary-grouping a",
   "a[class*=\"company-name\"]"]

/-- The LinkedIn description selector candidate list
(src/lib/extractor.js lines 224-252). -/
def descriptionSelectors : List String :=
  [".jobs-description-content__text",
   ".jobs-box__html-content",
   "div[class*=\"jobs-description\"] .jobs-box__html-content",
   ".jobs-description__content div",
   ".show-more-less-html__markup",
   ".show-more-less-html__markup--clamp-after-5",
   ".scaffold-layout__detail .jobs-description",
   ".jobs-details__main-content .jobs-description",
   ".jobs-description__content",
   ".jobs-description-content",
   "#job-details",
   ".jobs-description",
   ".description__text",
   "article[class*=\"jobs-description\"]",
   "section[class*=\"jobs-description\"]",
   "div[class*=\"job-description\"]",
   "[data-job-description]",
   "div[id*=\"description\"]",
   ".jobs-details__main-content div[class*=\"description\"]",
   "main div[class*=\"description\"]"]

/-- The LinkedIn location selector candidate list
(src/lib/extractor.js lines 254-264). -/
def locationSelectors : List String :=
  [".job-details-jobs-unified-top-card__primary-description-container span",
   ".jobs-unified-top-card__workplace-type",
   ".jobs-unified-top-card__bullet",
   ".topcard__flavor-row .topcard__flavor--bullet",
   ".job-details-jobs-unified-top-card__primary-description-container",
   ".jobs-unified-top-card__primary-description",
   "span[class*=\"job-location\"]"]

/-- The fixed job-role keyword set of the title fallback scorer
(src/lib/extractor.js line 289). -/
def jobKeywords : List String :=
  ["engineer", "developer", "manager", "analyst", "designer", "scientist",
   "architect", "lead", "senior", "junior", "staff"]

/-- A scored job-title candidate of the title fallback
(src/lib/extractor.js lines 277-300; the `element` handle is retained
only as its tag, the sole attribute the scorer reads). -/
structure TitleCandidate where
  text : String
  score : Int
deriving DecidableEq, Repr

/-- The title fallback scorer (src/lib/extractor.js lines 277-300):
trimmed text length band (+10 on [20,150], else +5 on [10,200]); +20 if
any job-role keyword occurs in the lowercased text; -50 if a
navigation/UI phrase occurs; +15/+10/+5 for an H1/H2/H3 tag. -/
def scoreTitleElem (el : Elem) : TitleCandidate :=
  let text := jsTrim el.textContent
  let lowerText := jsToLower text
  let s1 : Int :=
    if 20 ≤ text.length ∧ text.length ≤ 150 then 10
    else if 10 ≤ text.length ∧ text.length ≤ 200 then 5
    else 0
  let s2 : Int := s1 +
    (if jobKeywords.any (fun keyword => includesSub lowerText keyword) then 20 else 0)
  let s3 : Int := s2 -
    (if includesSub lowerText "linkedin" || includesSub lowerText "sign in" ||
        includesSub lowerText "join" then 50 else 0)
  let s4 : Int := s3 +
    (if el.tag = "H1" then 15
     else if el.tag = "H2" then 10
     else if el.tag = "H3" then 5
     else 0)
  { text := text, score := s4 }

/-- The scored and filtered title candidate pool of the title fallback
(src/lib/extractor.js lines 276-302): score every element, keep the
candidates with `score > 0`. -/
def titleFiltered (pool : List Elem) : List TitleCandidate :=
  (pool.map scoreTitleElem).filter (fun item => decide (0 < item.score))

/-- The title candidates after the stable descending-by-score sort
(src/lib/extractor.js line 303). -/
def titleCandidates (pool : List Elem) : List TitleCandidate :=
  (titleFiltered pool).mergeSort
    (fun a b => decide (TitleCandidate.score b ≤ TitleCandidate.score a))

/-- The title fallback selection (src/lib/extractor.js lines 310-313):
take the best-scoring candidate if any survives, else keep the previous
(empty) job title. -/
def pickTitleFallback (pool : List Elem) (jobTitle : String) : String :=
  match titleCandidates pool with
  | [] => jobTitle
  | c :: _ => c.text

/-- The acceptance filter of the description fallback
(src/lib/extractor.js lines 320-329): trimmed text length strictly
between 300 and 20000 and no navigation text, where "navigation text"
includes having more than 100 lines (page layout, not prose). -/
def acceptDescElem (el : Elem) : Bool :=
  let text := jsTrim el.textContent
  let lowerText := jsToLower text
  let hasNavigationText := includesSub lowerText "sign in" ||
    includesSub lowerText "join now" ||
    includesSub lowerText "messaging" ||
    decide (lineCount text > 100)
  decide (text.length > 300) && decide (text.length < 20000) && !hasNavigationText

/-- The raw `textContent` length an element is ranked by in the
description fallback sort (src/lib/extractor.js lines 331-335:
`a.textContent?.length`, the unfiltered length). -/
def elemTextLen (el : Elem) : Nat :=
  el.textContent.length

/-- The accepted candidate pool of the description fallback
(src/lib/extractor.js lines 319-330). -/
def descAccepted (pool : List Elem) : List Elem :=
  pool.filter acceptDescElem

/-- The accepted candidates after the stable descending-by-raw-length
sort, cut to the top five (src/lib/extractor.js lines 331-337). -/
def descCandidates (pool : List Elem) : List Elem :=
  ((descAccepted pool).mergeSort
    (fun a b => decide (elemTextLen b ≤ elemTextLen a))).take 5

/-- The description fallback selection (src/lib/extractor.js lines
349-352): the trimmed text of the longest accepted candidate, else the
previous (empty) description. -/
def pickDescriptionFallback (pool : List Elem) (description : String) : String :=
  match descCandidates pool with
  | [] => description
  | e :: _ => jsTrim e.textContent

/-- The field-resolution pipeline of `JobExtractor.extractLinkedIn`
(src/lib/extractor.js lines 108-367), i.e. the body of its `try` block:
wait for render (result discarded by the source), resolve the four
fields through the candidate selector lists, and run the scored
fallbacks when title or description resolved empty.  `_trySelectors`
returns trimmed text, so the source's `!jobTitle ||
jobTitle.trim().length === 0` test is equality with `""`.  The document
is modelled as a single unchanged snapshot, observed on every tick of
the render waiter.  Returns (jobTitle, company, description, location). -/
def linkedInFields (doc : Doc) : Except Unit (String × String × String × String) := do
  let _ ← waitForLinkedInRender (fun _ => doc) 20 500
  let jobTitle0 ← _trySelectors doc jobTitleSelectors "job title"
  let company ← _trySelectors doc companySelectors "company"
  let description0 ← _trySelectors doc descriptionSelectors "description"
  let location ← _trySelectors doc locationSelectors "location"
  let jobTitle ←
    if jobTitle0 = "" then do
      let pool ← doc.queryAll "h1, h2, h3, p"
      Except.ok (pickTitleFallback pool jobTitle0)
    else Except.ok jobTitle0
  let description ←
    if description0 = "" then do
      let pool ← doc.queryAll "div, article, section"
      Except.ok (pickDescriptionFallback pool description0)
    else Except.ok description0
  Except.ok (jobTitle, company, description, location)

/-- `JobExtractor.extractLinkedIn` (src/lib/extractor.js lines 108-372):
the whole body runs under `try/catch`; any fault resolves the call to
null (`none`), otherwise the normalized record is produced. -/
def extractLinkedIn (doc : Doc) (url now : String) : Option JobRecord :=
  match linkedInFields doc with
  | Except.ok (jobTitle, company, description, location) =>
    some { platform := Platform.linkedin, jobTitle := jobTitle,
           company := company, description := description,
           location := location, techStack := extractTechStack description,
           url := url, extractedAt := now }
  | Except.error _ => none

/-- The field resolution of `JobExtractor.extractGreenhouse`
(src/lib/extractor.js lines 380-383): four independent
`querySelector(...)?.textContent?.trim() || ''` reads. -/
def greenhouseFields (doc : Doc) : Except Unit (String × String × String × String) := do
  let jobTitle ← doc.query "h1.app-title"
  let company ← doc.query ".company-name"
  let description ← doc.query "#content, .content"
  let location ← doc.query ".location"
  Except.ok ((jobTitle.map jsTrim).getD "", (company.map jsTrim).getD "",
    (description.map jsTrim).getD "", (location.map jsTrim).getD "")

/-- `JobExtractor.extractGreenhouse` (src/lib/extractor.js lines
378-401): `try/catch` around the four field reads; fault resolves to
null. -/
def extractGreenhouse (doc : Doc) (url now : String) : Option JobRecord :=
  match greenhouseFields doc with
  | Except.ok (jobTitle, company, description, location) =>
    some { platform := Platform.greenhouse, jobTitle := jobTitle,
           company := company, description := description,
           location := location, techStack := extractTechStack description,
           url := url, extractedAt := now }
  | Except.error _ => none

/-- The field resolution of `JobExtractor.extractLever`
(src/lib/extractor.js lines 409-412). -/
def leverFields (doc : Doc) : Except Unit (String × String × String × String) := do
  let jobTitle ← doc.query ".posting-headline h2"
  let company ← doc.query ".main-header-text-item-1"
  let description ← doc.query ".content, .section-wrapper"
  let location ← doc.query ".location, .posting-categories .location"
  Except.ok ((jobTitle.map jsTrim).getD "", (company.map jsTrim).getD "",
    (description.map jsTrim).getD "", (location.map jsTrim).getD "")

/-- `JobExtractor.extractLever` (src/lib/extractor.js lines 407-430). -/
def extractLever (doc : Doc) (url now : String) : Option JobRecord :=
  match leverFields doc with
  | Except.ok (jobTitle, company, description, location) =>
    some { platform := Platform.lever, jobTitle := jobTitle,
           company := company, description := description,
           location := location, techStack := extractTechStack description,
           url := url, extractedAt := now }
  | Except.error _ => none

/-- `JobExtractor.extract` (src/lib/extractor.js lines 460-480): detect
the platform from the URL, return null immediately when unsupported,
else dispatch to the platform extractor. -/
def extract (doc : Doc) (url now : String) : Option JobRecord :=
  match detectPlatform url with
  | none => none
  | some Platform.linkedin => extractLinkedIn doc url now
  | some Platform.greenhouse => extractGreenhouse doc url now
  | some Platform.lever => extractLever doc url now

/-- `Storage.MAX_DESCRIPTION_LENGTH` (src/unnamed/part_001 line 9). -/
def MAX_DESCRIPTION_LENGTH : Nat := 20000

/-- `Storage.MAX_ANALYSIS_LENGTH` (src/unnamed/part_001 line 10). -/
def MAX_ANALYSIS_LENGTH : Nat := 30000

/-- `Storage.MAX_JOBS_COUNT` (src/unnamed/part_001 line 11). -/
def MAX_JOBS_COUNT : Nat := 100

/-- `Storage.truncateText` (src/unnamed/part_001 lines 19-23): empty
(falsy) text maps to `''`; text within the limit is returned unchanged;
longer text is cut at `maxLength` characters (`substring(0, maxLength)`)
and a fixed truncation notice is appended. -/
def truncateText (text : String) (maxLength : Nat) : String :=
  if text = "" then ""
  else if text.length ≤ maxLength then text
  else String.mk (text.data.take maxLength) ++
    "\n\n[Content truncated to fit storage limits]"

/-- JavaScript `| 0`: wrap an integer to signed 32-bit. -/
def toInt32 (n : Int) : Int :=
  (n + 2 ^ 31) % 2 ^ 32 - 2 ^ 31

/-- One step of `Storage.simpleHash` (src/unnamed/part_001 lines
226-234): `hash = ((hash << 5) - hash) + charCode; hash = hash | 0`
(the shift wraps to 32 bits before the subtraction, the sum after). -/
def simpleHashStep (hash : Int) (c : Char) : Int :=
  toInt32 (toInt32 (hash * 32) - hash + c.toNat)

/-- The digit characters of JavaScript `Number.prototype.toString(36)`. -/
def base36Char (n : Nat) : Char :=
  "0123456789abcdefghijklmnopqrstuvwxyz".data.getD n '0'

/-- JavaScript `Number.prototype.toString(36)` on a natural number. -/
def toBase36 (n : Nat) : String :=
  if h : n < 36 then String.mk [base36Char n]
  else toBase36 (n / 36) ++ String.mk [base36Char (n % 36)]
decreasing_by exact Nat.div_lt_self (by omega) (by omega)

/-- `Storage.simpleHash` (src/unnamed/part_001 lines 226-234):
fold the 32-bit hash over the character codes, then
`Math.abs(hash).toString(36)`. -/
def simpleHash (str : String) : String :=
  toBase36 (str.data.foldl simpleHashStep 0).natAbs

/-- `Storage.generateJobId` (src/unnamed/part_001 lines 215-219), with
`Date.now()` passed in as `nowMs`. -/
def generateJobId (url : String) (nowMs : Nat) : String :=
  "job_" ++ simpleHash url ++ "_" ++ toString nowMs

/-- A stored job object as `Storage.saveJob` manipulates it.  Only the
fields the storage logic reads or writes are modelled (`id`,
`description`, `analysis`, `url`, `updatedAt`); all fields are modelled
as present, with `""` for a JavaScript absent/falsy field, so the spread
merge `{...old, ...new}` is the new record. -/
structure StoredJob where
  id : String
  description : String
  analysis : String
  url : String
  updatedAt : String
deriving DecidableEq, Repr

/-- The in-place mutation of `jobData` performed by `Storage.saveJob`
before it touches the history (src/unnamed/part_001 lines 32-45):
truncate the large text fields when present (truthy), then generate an
id when absent. -/
def saveJobNormalize (jobData : StoredJob) (nowMs : Nat) : StoredJob :=
  let jobData1 :=
    if jobData.description ≠ "" then
      { jobData with
        description := truncateText jobData.description MAX_DESCRIPTION_LENGTH }
    else jobData
  let jobData2 :=
    if jobData1.analysis ≠ "" then
      { jobData1 with
        analysis := truncateText jobData1.analysis MAX_ANALYSIS_LENGTH }
    else jobData1
  if jobData2.id = "" then
    { jobData2 with id := generateJobId jobData2.url nowMs }
  else jobData2

/-- `Storage.saveJob` (src/unnamed/part_001 lines 30-67, the snapshot
with truncation): truncate the large text fields, generate an id when
absent, update in place when the id already exists (merging and stamping
`updatedAt`), otherwise `unshift` to the front, and keep only the first
`MAX_JOBS_COUNT` records (`slice(0, 100)`).  Returns the persisted
history; `now`/`nowMs` stand for `new Date().toISOString()` and
`Date.now()`. -/
def saveJob (jobs : List StoredJob) (jobData : StoredJob) (now : String)
    (nowMs : Nat) : List StoredJob :=
  let jobData3 := saveJobNormalize jobData nowMs
  match jobs.findIdx? (fun job => job.id == jobData3.id) with
  | some i => (jobs.set i { jobData3 with updatedAt := now }).take MAX_JOBS_COUNT
  | none => (jobData3 :: jobs).take MAX_JOBS_COUNT

@[simp] theorem except_bind_ok {ε α β : Type} (a : α) (f : α → Except ε β) :
    (Except.ok a >>= f) = f a := rfl

@[simp] theorem except_bind_error {ε α β : Type} (e : ε) (f : α → Except ε β) :
    ((Except.error e : Except ε α) >>= f) = Except.error e := rfl

/-- C6: the selector resolver returns `''` for the empty candidate list;
when every candidate before `sel` yields nothing (no element, or only
whitespace text) and `sel` resolves to an element with non-empty trimmed
text, the resolver returns that trimmed text regardless of the later
candidates; and when every candidate yields nothing it returns `''`
without raising a not-found fault. -/
theorem trySelectors_spec (doc : Doc) (label : String) :
    (_trySelectors doc [] label = Except.ok "") ∧
    (∀ pre sel rest txt,
      (∀ s ∈ pre, ∃ r, doc.query s = Except.ok r ∧ ∀ t, r = some t → jsTrim t = "") →
      doc.query sel = Except.ok (some txt) → jsTrim txt ≠ "" →
      _trySelectors doc (pre ++ sel :: rest) label = Except.ok (jsTrim txt)) ∧
    (∀ sels,
      (∀ s ∈ sels, ∃ r, doc.query s = Except.ok r ∧ ∀ t, r = some t → jsTrim t = "") →
      _trySelectors doc sels label = Except.ok "") := by
  refine ⟨rfl, ?_, ?_⟩
  · intro pre
    induction pre with
    | nil =>
      intro sel rest txt _ hq hne
      simp [_trySelectors, hq, Except.bind, hne]
    | cons s pre ih =>
      intro sel rest txt hpre hq hne
      obtain ⟨r, hr, hrempty⟩ := hpre s (List.mem_cons_self s pre)
      have htail := ih sel rest txt
        (fun x hx => hpre x (List.mem_cons_of_mem s hx)) hq hne
      cases r with
      | none => simpa [_trySelectors, hr, Except.bind] using htail
      | some t =>
        have ht : jsTrim t = "" := hrempty t rfl
        simpa [_trySelectors, hr, Except.bind, ht] using htail
  · intro sels
    induction sels with
    | nil => intro _; rfl
    | cons s rest ih =>
      intro hall
      obtain ⟨r, hr, hrempty⟩ := hall s (List.mem_cons_self s rest)
      have htail := ih (fun x hx => hall x (List.mem_cons_of_mem s hx))
      cases r with
      | none => simpa [_trySelectors, hr, Except.bind] using htail
      | some t =>
        have ht : jsTrim t = "" := hrempty t rfl
        simpa [_trySelectors, hr, Except.bind, ht] using htail

/-- A document with no matching elements at all. -/
def emptyDoc : Doc :=
  { query := fun _ => Except.ok none, queryAll := fun _ => Except.ok [] }

/-- A document used by the selector-resolver witness: only `#a` matches,
with padded text. -/
def abDoc : Doc :=
  { query := fun s => Except.ok (if s = "#a" then some " Engineer " else none),
    queryAll := fun _ => Except.ok [] }

/-- Witness for C6: the first matching candidate wins even though a later
one exists, and the empty candidate list resolves to `''`. -/
theorem trySelectors_spec_witness :
    _trySelectors abDoc ["#missing", "#a", "#b"] "job title" = Except.ok "Engineer" ∧
    _trySelectors abDoc [] "location" = Except.ok "" := by
  constructor
  · have h := (trySelectors_spec abDoc "job title").2.1 ["#missing"] "#a" ["#b"]
      " Engineer "
      (by
        intro s hs
        simp only [List.mem_singleton] at hs
        subst hs
        exact ⟨none, rfl, by intro t ht; cases ht⟩)
      rfl (by decide)
    simpa using h
  · exact (trySelectors_spec abDoc "location").1

theorem waitGo_ready (docAt : Nat → Doc) (maxAttempts j : Nat)
    (hj : j ≤ maxAttempts) (hready : probeSet (docAt j) = Except.ok true) :
    ∀ k attempt, attempt + k = j →
      (∀ i, attempt ≤ i → i < j → probeSet (docAt i) = Except.ok false) →
      waitGo docAt maxAttempts attempt = Except.ok (true, j) := by
  intro k
  induction k with
  | zero =>
    intro attempt hk _
    have ha : attempt = j := by omega
    subst ha
    rw [waitGo, dif_neg (by omega)]
    simp [hready]
  | succ k ih =>
    intro attempt hk hmin
    have hfalse : probeSet (docAt attempt) = Except.ok false :=
      hmin attempt (Nat.le_refl attempt) (by omega)
    rw [waitGo, dif_neg (by omega)]
    simp only [hfalse, except_bind_ok, if_neg Bool.false_ne_true]
    exact ih (attempt + 1) (by omega) (fun i h1 h2 => hmin i (by omega) h2)

theorem waitGo_exhausted (docAt : Nat → Doc) (maxAttempts : Nat) :
    ∀ k attempt, attempt + k = maxAttempts + 1 →
      (∀ i, attempt ≤ i → i ≤ maxAttempts → probeSet (docAt i) = Except.ok false) →
      waitGo docAt maxAttempts attempt = Except.ok (false, maxAttempts) := by
  intro k
  induction k with
  | zero =>
    intro attempt hk _
    rw [waitGo, dif_pos (by omega)]
  | succ k ih =>
    intro attempt hk hall
    have hfalse : probeSet (docAt attempt) = Except.ok false :=
      hall attempt (Nat.le_refl attempt) (by omega)
    rw [waitGo, dif_neg (by omega)]
    simp only [hfalse, except_bind_ok, if_neg Bool.false_ne_true]
    exact ih (attempt + 1) (by omega) (fun i h1 h2 => hall i (by omega) h2)

/-- C3: the render-readiness waiter returns `true` on the first tick `j`
on which the probe set succeeds, after exactly `j` ticks (it does not
wait out the remaining budget), and when no tick within the budget
succeeds it returns `false` after exactly `maxAttempts` ticks, raising no
exception (an `Except.ok` result) as long as the probes themselves do
not fault. -/
theorem waitForLinkedInRender_spec (docAt : Nat → Doc) (maxAttempts delay j : Nat) :
    (1 ≤ j → j ≤ maxAttempts → probeSet (docAt j) = Except.ok true →
      (∀ i, 1 ≤ i → i < j → probeSet (docAt i) = Except.ok false) →
      waitForLinkedInRender docAt maxAttempts delay = Except.ok (true, j)) ∧
    ((∀ i, 1 ≤ i → i ≤ maxAttempts → probeSet (docAt i) = Except.ok false) →
      waitForLinkedInRender docAt maxAttempts delay = Except.ok (false, maxAttempts)) := by
  constructor
  · intro h1 hj hready hmin
    exact waitGo_ready docAt maxAttempts j hj hready (j - 1) 1 (by omega) hmin
  · intro hall
    exact waitGo_exhausted docAt maxAttempts maxAttempts 1 (by omega) hall

/-- A document whose probe set succeeds (it has an `h1` element). -/
def readyDoc : Doc :=
  { query := fun _ => Except.ok none,
    queryAll := fun _ => Except.ok [{ tag := "H1", textContent := "Job" }] }

/-- A tick-indexed document that first satisfies a readiness probe on
tick 2. -/
def tickDocs : Nat → Doc :=
  fun n => if n = 2 then readyDoc else emptyDoc

/-- Witness for C3: with a budget of 3 ticks and readiness on tick 2 the
waiter reports success after exactly 2 ticks; with a budget of 2 ticks
and no readiness it reports failure after exactly 2 ticks, without a
fault. -/
theorem waitForLinkedInRender_spec_witness :
    waitForLinkedInRender tickDocs 3 10 = Except.ok (true, 2) ∧
    waitForLinkedInRender (fun _ => emptyDoc) 2 10 = Except.ok (false, 2) := by
  constructor
  · refine (waitForLinkedInRender_spec tickDocs 3 10 2).1 (by omega) (by omega) rfl ?_
    intro i h1 h2
    have hi : i = 1 := by omega
    subst hi
    rfl
  · exact (waitForLinkedInRender_spec (fun _ => emptyDoc) 2 10 0).2
      (fun i _ _ => rfl)

/-- C7: platform detection is a fixed ordered substring-rule list with
first-match-wins precedence: a URL containing `boards.greenhouse.io`
that is not claimed by the earlier LinkedIn rule maps to the greenhouse
platform whatever the rest of the URL looks like, and a URL matching no
rule maps to `none`, in which case `extract` returns null immediately,
for every document (no extraction is attempted). -/
theorem detectPlatform_spec (url now : String) (doc : Doc) :
    (includesSub url "boards.greenhouse.io" = true →
      includesSub url "linkedin.com/jobs" = false →
      detectPlatform url = some Platform.greenhouse) ∧
    (includesSub url "linkedin.com/jobs" = false →
      includesSub url "boards.greenhouse.io" = false →
      includesSub url "jobs.lever.co" = false →
      detectPlatform url = none ∧ extract doc url now = none) := by
  constructor
  · intro hg hl
    rw [detectPlatform, if_neg (by simp [hl]), if_pos (by simp [hg])]
  · intro hl hg hv
    have hd : detectPlatform url = none := by
      rw [detectPlatform, if_neg (by simp [hl]), if_neg (by simp [hg]),
        if_neg (by simp [hv])]
    exact ⟨hd, by rw [extract, hd]⟩

/-- Witness for C7: a greenhouse board URL with an arbitrary path suffix
is detected as greenhouse; an unrelated URL is detected as no platform
and `extract` returns null on it. -/
theorem detectPlatform_spec_witness :
    detectPlatform "https://boards.greenhouse.io/acme/jobs/4002?from=feed" =
      some Platform.greenhouse ∧
    (detectPlatform "https://example.com/careers/123" = none ∧
      extract emptyDoc "https://example.com/careers/123" "2026-01-06" = none) := by
  constructor
  · exact (detectPlatform_spec "https://boards.greenhouse.io/acme/jobs/4002?from=feed"
      "2026-01-06" emptyDoc).1 (by decide) (by decide)
  · exact (detectPlatform_spec "https://example.com/careers/123"
      "2026-01-06" emptyDoc).2 (by decide) (by decide) (by decide)

theorem waitGo_error (docAt : Nat → Doc) (maxAttempts j : Nat)
    (hj : j ≤ maxAttempts) (herr : probeSet (docAt j) = Except.error ()) :
    ∀ k attempt, attempt + k = j →
      (∀ i, attempt ≤ i → i < j → probeSet (docAt i) = Except.ok false) →
      waitGo docAt maxAttempts attempt = Except.error () := by
  intro k
  induction k with
  | zero =>
    intro attempt hk _
    have ha : attempt = j := by omega
    subst ha
    rw [waitGo, dif_neg (by omega)]
    simp [herr]
  | succ k ih =>
    intro attempt hk hmin
    have hfalse : probeSet (docAt attempt) = Except.ok false :=
      hmin attempt (Nat.le_refl attempt) (by omega)
    rw [waitGo, dif_neg (by omega)]
    simp only [hfalse, except_bind_ok, if_neg Bool.false_ne_true]
    exact ih (attempt + 1) (by omega) (fun i h1 h2 => hmin i (by omega) h2)

theorem waitConst_ok (doc : Doc) (b : Bool) (hb : probeSet doc = Except.ok b) :
    waitForLinkedInRender (fun _ => doc) 20 500 =
      Except.ok (b, if b then 1 else 20) := by
  cases b with
  | false =>
    exact waitGo_exhausted (fun _ => doc) 20 20 1 (by omega) (fun i _ _ => hb)
  | true =>
    exact waitGo_ready (fun _ => doc) 20 1 (by omega) hb 0 1 (by omega)
      (fun i h1 h2 => absurd h2 (by omega))

/-- C2: an unexpected fault raised during extraction nullifies the whole
call, for every platform extractor.  For Greenhouse and Lever, a fault
in any of the four field reads (wherever it occurs in the sequence)
makes the call return null — never a partially-populated record — while
fault-free reads produce exactly the normal-path record in which an
unresolved field is the empty string.  For LinkedIn, the call is null
exactly when the `try`-block body faults, and a non-null result is
exactly the normal-path record over the body's resolved fields; a fault
at any stage of the body — a probe access on any tick the waiter
reaches, any of the four selector sweeps, or either fallback scan —
propagates to that null. -/
theorem extractor_fault_isolation (doc : Doc) (url now : String) :
    ((doc.query "h1.app-title" = Except.error () ∨
      doc.query ".company-name" = Except.error () ∨
      doc.query "#content, .content" = Except.error () ∨
      doc.query ".location" = Except.error ()) →
      extractGreenhouse doc url now = none) ∧
    (∀ o1 o2 o3 o4,
      doc.query "h1.app-title" = Except.ok o1 →
      doc.query ".company-name" = Except.ok o2 →
      doc.query "#content, .content" = Except.ok o3 →
      doc.query ".location" = Except.ok o4 →
      extractGreenhouse doc url now = some
        { platform := Platform.greenhouse,
          jobTitle := (o1.map jsTrim).getD "",
          company := (o2.map jsTrim).getD "",
          description := (o3.map jsTrim).getD "",
          location := (o4.map jsTrim).getD "",
          techStack := extractTechStack ((o3.map jsTrim).getD ""),
          url := url, extractedAt := now }) ∧
    ((doc.query ".posting-headline h2" = Except.error () ∨
      doc.query ".main-header-text-item-1" = Except.error () ∨
      doc.query ".content, .section-wrapper" = Except.error () ∨
      doc.query ".location, .posting-categories .location" = Except.error ()) →
      extractLever doc url now = none) ∧
    (∀ o1 o2 o3 o4,
      doc.query ".posting-headline h2" = Except.ok o1 →
      doc.query ".main-header-text-item-1" = Except.ok o2 →
      doc.query ".content, .section-wrapper" = Except.ok o3 →
      doc.query ".location, .posting-categories .location" = Except.ok o4 →
      extractLever doc url now = some
        { platform := Platform.lever,
          jobTitle := (o1.map jsTrim).getD "",
          company := (o2.map jsTrim).getD "",
          description := (o3.map jsTrim).getD "",
          location := (o4.map jsTrim).getD "",
          techStack := extractTechStack ((o3.map jsTrim).getD ""),
          url := url, extractedAt := now }) ∧
    (extractLinkedIn doc url now = none ↔
      linkedInFields doc = Except.error ()) ∧
    (∀ q, linkedInFields doc = Except.ok q →
      extractLinkedIn doc url now = some
        { platform := Platform.linkedin, jobTitle := q.1, company := q.2.1,
          description := q.2.2.1, location := q.2.2.2,
          techStack := extractTechStack q.2.2.1, url := url,
          extractedAt := now }) ∧
    (∀ r, extractLinkedIn doc url now = some r →
      ∃ q, linkedInFields doc = Except.ok q ∧
        r = { platform := Platform.linkedin, jobTitle := q.1,
              company := q.2.1, description := q.2.2.1,
              location := q.2.2.2, techStack := extractTechStack q.2.2.1,
              url := url, extractedAt := now }) ∧
    (waitForLinkedInRender (fun _ => doc) 20 500 = Except.error () →
      extractLinkedIn doc url now = none) ∧
    (∀ docAt maxAttempts delay j, 1 ≤ j → j ≤ maxAttempts →
      (∀ i, 1 ≤ i → i < j → probeSet (docAt i) = Except.ok false) →
      probeSet (docAt j) = Except.error () →
      waitForLinkedInRender docAt maxAttempts delay = Except.error ()) ∧
    (∀ b, probeSet doc = Except.ok b →
      _trySelectors doc jobTitleSelectors "job title" = Except.error () →
      extractLinkedIn doc url now = none) ∧
    (∀ b t, probeSet doc = Except.ok b →
      _trySelectors doc jobTitleSelectors "job title" = Except.ok t →
      _trySelectors doc companySelectors "company" = Except.error () →
      extractLinkedIn doc url now = none) ∧
    (∀ b t c, probeSet doc = Except.ok b →
      _trySelectors doc jobTitleSelectors "job title" = Except.ok t →
      _trySelectors doc companySelectors "company" = Except.ok c →
      _trySelectors doc descriptionSelectors "description" = Except.error () →
      extractLinkedIn doc url now = none) ∧
    (∀ b t c d, probeSet doc = Except.ok b →
      _trySelectors doc jobTitleSelectors "job title" = Except.ok t →
      _trySelectors doc companySelectors "company" = Except.ok c →
      _trySelectors doc descriptionSelectors "description" = Except.ok d →
      _trySelectors doc locationSelectors "location" = Except.error () →
      extractLinkedIn doc url now = none) ∧
    (∀ b c d l, probeSet doc = Except.ok b →
      _trySelectors doc jobTitleSelectors "job title" = Except.ok "" →
      _trySelectors doc companySelectors "company" = Except.ok c →
      _trySelectors doc descriptionSelectors "description" = Except.ok d →
      _trySelectors doc locationSelectors "location" = Except.ok l →
      doc.queryAll "h1, h2, h3, p" = Except.error () →
      extractLinkedIn doc url now = none) ∧
    (∀ b t c l, probeSet doc = Except.ok b →
      _trySelectors doc jobTitleSelectors "job title" = Except.ok t →
      t ≠ "" →
      _trySelectors doc companySelectors "company" = Except.ok c →
      _trySelectors doc descriptionSelectors "description" = Except.ok "" →
      _trySelectors doc locationSelectors "location" = Except.ok l →
      doc.queryAll "div, article, section" = Except.error () →
      extractLinkedIn doc url now = none) := by
  refine ⟨?_, ?_, ?_, ?_, ?_, ?_, ?_, ?_, ?_, ?_, ?_, ?_, ?_, ?_, ?_⟩
  · intro h
    rcases h with h | h | h | h
    · simp [extractGreenhouse, greenhouseFields, h]
    · cases e1 : doc.query "h1.app-title" with
      | error u => cases u; simp [extractGreenhouse, greenhouseFields, e1]
      | ok o1 => simp [extractGreenhouse, greenhouseFields, e1, h]
    · cases e1 : doc.query "h1.app-title" with
      | error u => cases u; simp [extractGreenhouse, greenhouseFields, e1]
      | ok o1 =>
        cases e2 : doc.query ".company-name" with
        | error u => cases u; simp [extractGreenhouse, greenhouseFields, e1, e2]
        | ok o2 => simp [extractGreenhouse, greenhouseFields, e1, e2, h]
    · cases e1 : doc.query "h1.app-title" with
      | error u => cases u; simp [extractGreenhouse, greenhouseFields, e1]
      | ok o1 =>
        cases e2 : doc.query ".company-name" with
        | error u => cases u; simp [extractGreenhouse, greenhouseFields, e1, e2]
        | ok o2 =>
          cases e3 : doc.query "#content, .content" with
          | error u =>
            cases u; simp [extractGreenhouse, greenhouseFields, e1, e2, e3]
          | ok o3 => simp [extractGreenhouse, greenhouseFields, e1, e2, e3, h]
  · intro o1 o2 o3 o4 e1 e2 e3 e4
    simp [extractGreenhouse, greenhouseFields, e1, e2, e3, e4]
  · intro h
    rcases h with h | h | h | h
    · simp [extractLever, leverFields, h]
    · cases e1 : doc.query ".posting-headline h2" with
      | error u => cases u; simp [extractLever, leverFields, e1]
      | ok o1 => simp [extractLever, leverFields, e1, h]
    · cases e1 : doc.query ".posting-headline h2" with
      | error u => cases u; simp [extractLever, leverFields, e1]
      | ok o1 =>
        cases e2 : doc.query ".main-header-text-item-1" with
        | error u => cases u; simp [extractLever, leverFields, e1, e2]
        | ok o2 => simp [extractLever, leverFields, e1, e2, h]
    · cases e1 : doc.query ".posting-headline h2" with
      | error u => cases u; simp [extractLever, leverFields, e1]
      | ok o1 =>
        cases e2 : doc.query ".main-header-text-item-1" with
        | error u => cases u; simp [extractLever, leverFields, e1, e2]
        | ok o2 =>
          cases e3 : doc.query ".content, .section-wrapper" with
          | error u => cases u; simp [extractLever, leverFields, e1, e2, e3]
          | ok o3 => simp [extractLever, leverFields, e1, e2, e3, h]
  · intro o1 o2 o3 o4 e1 e2 e3 e4
    simp [extractLever, leverFields, e1, e2, e3, e4]
  · cases hf : linkedInFields doc with
    | error u =>
      cases u
      simp [extractLinkedIn, hf]
    | ok q =>
      obtain ⟨t, c, d, l⟩ := q
      simp [extractLinkedIn, hf]
  · intro q hq
    obtain ⟨t, c, d, l⟩ := q
    unfold extractLinkedIn
    rw [hq]
  · intro r hr
    cases hf : linkedInFields doc with
    | error u =>
      unfold extractLinkedIn at hr
      rw [hf] at hr
      cases hr
    | ok q =>
      obtain ⟨t, c, d, l⟩ := q
      refine ⟨(t, c, d, l), rfl, ?_⟩
      · unfold extractLinkedIn at hr
        rw [hf] at hr
        injection hr with hr
        exact hr.symm
  · intro hw
    unfold extractLinkedIn linkedInFields
    rw [hw]
    simp only [except_bind_error]
  · intro docAt maxAttempts delay j h1 hj hmin herr
    exact waitGo_error docAt maxAttempts j hj herr (j - 1) 1 (by omega) hmin
  · intro b hb ht
    have hw := waitConst_ok doc b hb
    unfold extractLinkedIn linkedInFields
    rw [hw]
    simp [ht]
  · intro b t hb ht hc
    have hw := waitConst_ok doc b hb
    unfold extractLinkedIn linkedInFields
    rw [hw]
    simp [ht, hc]
  · intro b t c hb ht hc hd
    have hw := waitConst_ok doc b hb
    unfold extractLinkedIn linkedInFields
    rw [hw]
    simp [ht, hc, hd]
  · intro b t c d hb ht hc hd hl
    have hw := waitConst_ok doc b hb
    unfold extractLinkedIn linkedInFields
    rw [hw]
    simp [ht, hc, hd, hl]
  · intro b c d l hb ht hc hd hl hq
    have hw := waitConst_ok doc b hb
    unfold extractLinkedIn linkedInFields
    rw [hw]
    simp [ht, hc, hd, hl, hq]
  · intro b t c l hb ht htne hc hd hl hq
    have hw := waitConst_ok doc b hb
    unfold extractLinkedIn linkedInFields
    rw [hw]
    simp [ht, htne, hc, hd, hl, hq]

/-- A document whose `.company-name` read throws mid-way through the
Greenhouse field sequence (the other reads succeed). -/
def midFaultDoc : Doc :=
  { query := fun s =>
      if s = ".company-name" then Except.error () else Except.ok (some "X"),
    queryAll := fun _ => Except.ok [] }

/-- A document whose very first LinkedIn access (`querySelectorAll('h1')`)
throws. -/
def h1FaultDoc : Doc :=
  { query := fun _ => Except.ok none, queryAll := fun _ => Except.error () }

/-- A document whose probes and title sweep succeed but whose first
company-selector read throws mid-way through the LinkedIn sweeps. -/
def liCompanyFaultDoc : Doc :=
  { query := fun s =>
      if s = ".job-details-jobs-unified-top-card__company-name a" then
        Except.error ()
      else Except.ok none,
    queryAll := fun _ => Except.ok [] }

/-- Witness for C2: a mid-sequence fault nullifies the Greenhouse call
(no partial record with the already-resolved title), a fault-free
document yields the normal sparse record, a probe fault nullifies the
LinkedIn call, and a company-sweep fault after the probes and the title
sweep succeeded also nullifies the LinkedIn call. -/
theorem extractor_fault_isolation_witness :
    extractGreenhouse midFaultDoc "u" "t" = none ∧
    extractGreenhouse emptyDoc "u" "t" = some
      { platform := Platform.greenhouse, jobTitle := "", company := "",
        description := "", location := "", techStack := [], url := "u",
        extractedAt := "t" } ∧
    extractLinkedIn h1FaultDoc "u" "t" = none ∧
    extractLinkedIn liCompanyFaultDoc "u" "t" = none := by
  refine ⟨?_, ?_, ?_, ?_⟩
  · exact (extractor_fault_isolation midFaultDoc "u" "t").1 (Or.inr (Or.inl rfl))
  · have h := (extractor_fault_isolation emptyDoc "u" "t").2.1
      none none none none rfl rfl rfl rfl
    simpa [extractTechStack] using h
  · obtain ⟨-, -, -, -, -, -, -, hwnone, hwerr, -, -, -, -, -, -⟩ :=
      extractor_fault_isolation h1FaultDoc "u" "t"
    exact hwnone (hwerr (fun _ => h1FaultDoc) 20 500 1 (by omega) (by omega)
      (fun i hi1 hi2 => absurd hi2 (by omega)) rfl)
  · obtain ⟨-, -, -, -, -, -, -, -, -, -, hcomp, -, -, -, -⟩ :=
      extractor_fault_isolation liCompanyFaultDoc "u" "t"
    exact hcomp false "" rfl rfl rfl

/-- C8: `extract` is deterministic with respect to the document and URL:
two runs against the same document and location either both return null,
or return records that agree on every field except `extractedAt`, which
carries each run's own timestamp. -/
theorem extract_deterministic (doc : Doc) (url t1 t2 : String) :
    (extract doc url t1 = none ↔ extract doc url t2 = none) ∧
    (∀ r1 r2, extract doc url t1 = some r1 → extract doc url t2 = some r2 →
      r1.platform = r2.platform ∧ r1.jobTitle = r2.jobTitle ∧
      r1.company = r2.company ∧ r1.description = r2.description ∧
      r1.location = r2.location ∧ r1.techStack = r2.techStack ∧
      r1.url = r2.url ∧ r1.extractedAt = t1 ∧ r2.extractedAt = t2) := by
  cases hd : detectPlatform url with
  | none =>
    have he : ∀ t, extract doc url t = none := by
      intro t
      unfold extract
      rw [hd]
    refine ⟨by rw [he t1, he t2], ?_⟩
    intro r1 r2 h1 _
    rw [he t1] at h1
    cases h1
  | some p =>
    cases p with
    | linkedin =>
      have he : ∀ t, extract doc url t = extractLinkedIn doc url t := by
        intro t
        unfold extract
        rw [hd]
      cases hf : linkedInFields doc with
      | error u =>
        have hn : ∀ t, extractLinkedIn doc url t = none := by
          intro t
          unfold extractLinkedIn
          rw [hf]
        refine ⟨by rw [he t1, he t2, hn t1, hn t2], ?_⟩
        intro r1 r2 h1 _
        rw [he t1, hn t1] at h1
        cases h1
      | ok quad =>
        obtain ⟨a, c, d, l⟩ := quad
        have hs : ∀ t, extractLinkedIn doc url t = some
            { platform := Platform.linkedin, jobTitle := a, company := c,
              description := d, location := l,
              techStack := extractTechStack d, url := url,
              extractedAt := t } := by
          intro t
          unfold extractLinkedIn
          rw [hf]
        refine ⟨by rw [he t1, he t2, hs t1, hs t2]; simp, ?_⟩
        intro r1 r2 h1 h2
        rw [he t1, hs t1] at h1
        rw [he t2, hs t2] at h2
        injection h1 with h1
        injection h2 with h2
        subst h1
        subst h2
        exact ⟨rfl, rfl, rfl, rfl, rfl, rfl, rfl, rfl, rfl⟩
    | greenhouse =>
      have he : ∀ t, extract doc url t = extractGreenhouse doc url t := by
        intro t
        unfold extract
        rw [hd]
      cases hf : greenhouseFields doc with
      | error u =>
        have hn : ∀ t, extractGreenhouse doc url t = none := by
          intro t
          unfold extractGreenhouse
          rw [hf]
        refine ⟨by rw [he t1, he t2, hn t1, hn t2], ?_⟩
        intro r1 r2 h1 _
        rw [he t1, hn t1] at h1
        cases h1
      | ok quad =>
        obtain ⟨a, c, d, l⟩ := quad
        have hs : ∀ t, extractGreenhouse doc url t = some
            { platform := Platform.greenhouse, jobTitle := a, company := c,
              description := d, location := l,
              techStack := extractTechStack d, url := url,
              extractedAt := t } := by
          intro t
          unfold extractGreenhouse
          rw [hf]
        refine ⟨by rw [he t1, he t2, hs t1, hs t2]; simp, ?_⟩
        intro r1 r2 h1 h2
        rw [he t1, hs t1] at h1
        rw [he t2, hs t2] at h2
        injection h1 with h1
        injection h2 with h2
        subst h1
        subst h2
        exact ⟨rfl, rfl, rfl, rfl, rfl, rfl, rfl, rfl, rfl⟩
    | lever =>
      have he : ∀ t, extract doc url t = extractLever doc url t := by
        intro t
        unfold extract
        rw [hd]
      cases hf : leverFields doc with
      | error u =>
        have hn : ∀ t, extractLever doc url t = none := by
          intro t
          unfold extractLever
          rw [hf]
        refine ⟨by rw [he t1, he t2, hn t1, hn t2], ?_⟩
        intro r1 r2 h1 _
        rw [he t1, hn t1] at h1
        cases h1
      | ok quad =>
        obtain ⟨a, c, d, l⟩ := quad
        have hs : ∀ t, extractLever doc url t = some
            { platform := Platform.lever, jobTitle := a, company := c,
              description := d, location := l,
              techStack := extractTechStack d, url := url,
              extractedAt := t } := by
          intro t
          unfold extractLever
          rw [hf]
        refine ⟨by rw [he t1, he t2, hs t1, hs t2]; simp, ?_⟩
        intro r1 r2 h1 h2
        rw [he t1, hs t1] at h1
        rw [he t2, hs t2] at h2
        injection h1 with h1
        injection h2 with h2
        subst h1
        subst h2
        exact ⟨rfl, rfl, rfl, rfl, rfl, rfl, rfl, rfl, rfl⟩

/-- The record produced from the empty Greenhouse board document with
timestamp `T1`. -/
def ghJobT1 : JobRecord :=
  { platform := Platform.greenhouse, jobTitle := "", company := "",
    description := "", location := "", techStack := [],
    url := "https://boards.greenhouse.io/acme", extractedAt := "T1" }

/-- The record produced from the same document with timestamp `T2`. -/
def ghJobT2 : JobRecord :=
  { platform := Platform.greenhouse, jobTitle := "", company := "",
    description := "", location := "", techStack := [],
    url := "https://boards.greenhouse.io/acme", extractedAt := "T2" }

/-- Witness for C8: two runs of `extract` on the same (empty Greenhouse)
document and URL, with different clocks, agree on every field except
`extractedAt`. -/
theorem extract_deterministic_witness :
    ghJobT1.platform = ghJobT2.platform ∧ ghJobT1.jobTitle = ghJobT2.jobTitle ∧
    ghJobT1.company = ghJobT2.company ∧
    ghJobT1.description = ghJobT2.description ∧
    ghJobT1.location = ghJobT2.location ∧
    ghJobT1.techStack = ghJobT2.techStack ∧ ghJobT1.url = ghJobT2.url ∧
    ghJobT1.extractedAt = "T1" ∧ ghJobT2.extractedAt = "T2" :=
  (extract_deterministic emptyDoc "https://boards.greenhouse.io/acme"
    "T1" "T2").2 ghJobT1 ghJobT2 (by decide) (by decide)

theorem head_mergeSort_argmax {α β : Type} [LinearOrder β] (f : α → β)
    (l : List α) :
    (l.mergeSort (fun a b => decide (f b ≤ f a))).head? = l.argmax f := by
  have htrans : ∀ x y z : α, decide (f y ≤ f x) = true →
      decide (f z ≤ f y) = true → decide (f z ≤ f x) = true := by
    intro x y z hxy hyz
    simp only [decide_eq_true_eq] at *
    exact le_trans hyz hxy
  have htotal : ∀ x y : α, (decide (f y ≤ f x) || decide (f x ≤ f y)) = true := by
    intro x y
    simp only [Bool.or_eq_true, decide_eq_true_eq]
    exact le_total (f y) (f x)
  induction l with
  | nil => simp
  | cons a l ih =>
    obtain ⟨l₁, l₂, h1, h2, h3⟩ :=
      List.mergeSort_cons htrans htotal a l
    rw [h1]
    rw [h2] at ih
    cases l₁ with
    | nil =>
      simp only [List.nil_append, List.head?_cons]
      cases hl : l.argmax f with
      | none => simp only [List.argmax_cons, hl]
      | some c =>
        rw [hl] at ih
        cases l₂ with
        | nil => simp at ih
        | cons c2 t =>
          simp only [List.nil_append, List.head?_cons, Option.some.injEq] at ih
          subst ih
          have hs := List.sorted_mergeSort htrans htotal (a :: l)
          rw [h1] at hs
          simp only [List.nil_append] at hs
          have hac : decide (f c2 ≤ f a) = true :=
            List.rel_of_pairwise_cons hs (List.mem_cons_self c2 t)
          have hle : f c2 ≤ f a := by simpa using hac
          simp only [List.argmax_cons, hl, if_neg (not_lt.mpr hle)]
    | cons b l₁' =>
      have hb := h3 b (List.mem_cons_self b l₁')
      have hfb : f a < f b := by
        simp only [Bool.not_eq_true'] at hb
        exact not_le.mp (by simpa using hb)
      have hl : l.argmax f = some b := by
        rw [← ih]
        simp
      simp only [List.cons_append, List.head?_cons, List.argmax_cons, hl,
        if_pos hfb]

/-- C4 (amended: the secondary length band is the closed interval
[10,200], matching `text.length >= 10 && text.length <= 200`): the title
fallback scorer assigns +10 for trimmed length in [20,150], else +5 for
length in [10,200]; +20 if any job-role keyword occurs; +15/+10/+5 for
an H1/H2/H3 tag (0 otherwise); and -50 if a navigation phrase occurs.
Candidates scoring <= 0 are discarded; the highest-scoring survivor is
chosen with ties broken by scan order (first wins); an H1 reading
"Senior Backend Engineer" scores 45 and beats the discarded paragraph
"Click here to sign in". -/
theorem pickTitleFallback_spec (pool : List Elem) (prev : String) :
    (∀ el : Elem, (scoreTitleElem el).score =
      (if 20 ≤ (jsTrim el.textContent).length ∧
          (jsTrim el.textContent).length ≤ 150 then (10 : Int)
       else if 10 ≤ (jsTrim el.textContent).length ∧
          (jsTrim el.textContent).length ≤ 200 then 5
       else 0)
      + (if jobKeywords.any
            (fun keyword => includesSub (jsToLower (jsTrim el.textContent)) keyword)
         then 20 else 0)
      + (if el.tag = "H1" then 15
         else if el.tag = "H2" then 10
         else if el.tag = "H3" then 5
         else 0)
      - (if includesSub (jsToLower (jsTrim el.textContent)) "linkedin" ||
            includesSub (jsToLower (jsTrim el.textContent)) "sign in" ||
            includesSub (jsToLower (jsTrim el.textContent)) "join"
         then 50 else 0)) ∧
    (titleFiltered pool = [] → pickTitleFallback pool prev = prev) ∧
    (∀ c, c ∈ (titleFiltered pool).argmax TitleCandidate.score →
      pickTitleFallback pool prev = c.text ∧
      c ∈ titleFiltered pool ∧
      (∀ d ∈ titleFiltered pool, d.score ≤ c.score) ∧
      (∀ d ∈ titleFiltered pool, c.score ≤ d.score →
        (titleFiltered pool).indexOf c ≤ (titleFiltered pool).indexOf d)) ∧
    ((scoreTitleElem { tag := "H1", textContent := "Senior Backend Engineer" }).score = 45 ∧
     (scoreTitleElem { tag := "P", textContent := "Click here to sign in" }).score = -40 ∧
     pickTitleFallback
       [{ tag := "P", textContent := "Click here to sign in" },
        { tag := "H1", textContent := "Senior Backend Engineer" }] "" =
       "Senior Backend Engineer") := by
  refine ⟨?_, ?_, ?_, by decide, by decide, ?_⟩
  · intro el
    unfold scoreTitleElem
    dsimp only
    ring
  · intro h
    rw [pickTitleFallback, titleCandidates, h, List.mergeSort_nil]
  · intro c hc
    have hh := head_mergeSort_argmax TitleCandidate.score (titleFiltered pool)
    have hc' : (titleFiltered pool).argmax TitleCandidate.score = some c :=
      Option.mem_def.mp hc
    rw [hc'] at hh
    have hmem : c ∈ titleFiltered pool := List.argmax_mem hc
    refine ⟨?_, hmem, fun d hd => List.le_of_mem_argmax hd hc,
      fun d hd hscore => List.index_of_argmax hc hd hscore⟩
    rw [pickTitleFallback, titleCandidates]
    cases hsort : (titleFiltered pool).mergeSort
        (fun a b => decide (TitleCandidate.score b ≤ TitleCandidate.score a)) with
    | nil => rw [hsort] at hh; cases hh
    | cons c0 rest =>
      rw [hsort] at hh
      simp only [List.head?_cons, Option.some.injEq] at hh
      rw [hh]
  · have hfiltEx : titleFiltered
        [{ tag := "P", textContent := "Click here to sign in" },
         { tag := "H1", textContent := "Senior Backend Engineer" }] =
        [scoreTitleElem { tag := "H1", textContent := "Senior Backend Engineer" }] := by
      decide
    rw [pickTitleFallback, titleCandidates, hfiltEx, List.mergeSort_singleton]
    decide

/-- The element whose trimmed text has length exactly 200 and carries no
other scoring signal. -/
def elLen200 : Elem :=
  { tag := "DIV", textContent := String.mk (List.replicate 200 'x') }

/-- The title scorer as the claim states it, with the half-open
secondary length band [10,200).  This definition follows the claim's
words, for comparison against the source-derived `scoreTitleElem`. -/
def claimedTitleScore (el : Elem) : Int :=
  (if 20 ≤ (jsTrim el.textContent).length ∧
      (jsTrim el.textContent).length ≤ 150 then (10 : Int)
   else if 10 ≤ (jsTrim el.textContent).length ∧
      (jsTrim el.textContent).length < 200 then 5
   else 0)
  + (if jobKeywords.any
        (fun keyword => includesSub (jsToLower (jsTrim el.textContent)) keyword)
     then 20 else 0)
  + (if el.tag = "H1" then 15
     else if el.tag = "H2" then 10
     else if el.tag = "H3" then 5
     else 0)
  - (if includesSub (jsToLower (jsTrim el.textContent)) "linkedin" ||
        includesSub (jsToLower (jsTrim el.textContent)) "sign in" ||
        includesSub (jsToLower (jsTrim el.textContent)) "join"
     then 50 else 0)

set_option maxRecDepth 8000 in
/-- Counterexample to C4 as stated: at trimmed text length exactly 200
the code's secondary band (`<= 200`, inclusive) awards +5 and keeps the
candidate, while the claim's band [10,200) awards 0 and would discard
it, so the fallback would return the previous empty title instead of
this candidate's text. -/
theorem titleScore_band_counterexample :
    (scoreTitleElem elLen200).score = 5 ∧
    claimedTitleScore elLen200 = 0 ∧
    pickTitleFallback [elLen200] "" = String.mk (List.replicate 200 'x') ∧
    pickTitleFallback [elLen200] "" ≠ "" := by
  have hfilt : titleFiltered [elLen200] = [scoreTitleElem elLen200] := by decide
  have hcand : titleCandidates [elLen200] = [scoreTitleElem elLen200] := by
    rw [titleCandidates, hfilt, List.mergeSort_singleton]
  refine ⟨by decide, by decide, ?_, ?_⟩
  · rw [pickTitleFallback, hcand]
    decide
  · rw [pickTitleFallback, hcand]
    decide

/-- Witness for C4 (amended): the concrete two-element pool from the
claim's example, run through the fallback. -/
theorem pickTitleFallback_spec_witness :
    pickTitleFallback
      [{ tag := "P", textContent := "Click here to sign in" },
       { tag := "H1", textContent := "Senior Backend Engineer" }] "" =
      (scoreTitleElem { tag := "H1", textContent := "Senior Backend Engineer" }).text :=
  ((pickTitleFallback_spec
    [{ tag := "P", textContent := "Click here to sign in" },
     { tag := "H1", textContent := "Senior Backend Engineer" }] "").2.2.1
    (scoreTitleElem { tag := "H1", textContent := "Senior Backend Engineer" })
    (Option.mem_def.mpr (by decide))).1

theorem mergeSort_pair_of_not_le {α : Type} {le : α → α → Bool}
    (htrans : ∀ x y z : α, le x y → le y z → le x z)
    (htotal : ∀ x y : α, le x y || le y x)
    (a b : α) (hn : le a b = false) :
    [a, b].mergeSort le = [b, a] := by
  obtain ⟨l₁, l₂, h1, h2, h3⟩ := List.mergeSort_cons htrans htotal a [b]
  rw [List.mergeSort_singleton] at h2
  cases l₁ with
  | nil =>
    simp only [List.nil_append] at h1 h2
    subst h2
    have hs := List.sorted_mergeSort htrans htotal [a, b]
    rw [h1] at hs
    have hab := List.rel_of_pairwise_cons hs (List.mem_cons_self b [])
    rw [hn] at hab
    cases hab
  | cons x xs =>
    rw [List.cons_append] at h2
    injection h2 with hb ht
    obtain ⟨hxs, hl₂⟩ := List.append_eq_nil.mp ht.symm
    subst hb
    subst hxs
    subst hl₂
    simpa using h1

theorem jsTrim_replicate (n : Nat) (c : Char) (h : c.isWhitespace = false) :
    jsTrim (String.mk (List.replicate n c)) = String.mk (List.replicate n c) := by
  have hdrop : (List.replicate n c).dropWhile Char.isWhitespace =
      List.replicate n c := by
    rw [List.dropWhile_eq_self_iff]
    intro hl
    rw [List.get_replicate]
    simp [h]
  unfold jsTrim
  simp only [hdrop, List.reverse_replicate]

theorem not_infix_replicate {c x : Char} {needle : List Char} (hx : x ∈ needle)
    (hxc : x ≠ c) (n : Nat) : ¬ needle <:+: List.replicate n c := by
  intro hinf
  exact hxc (List.eq_of_mem_replicate (hinf.subset hx))

theorem acceptDescElem_iff (el : Elem) : acceptDescElem el = true ↔
    (300 < (jsTrim el.textContent).length ∧
     (jsTrim el.textContent).length < 20000 ∧
     includesSub (jsToLower (jsTrim el.textContent)) "sign in" = false ∧
     includesSub (jsToLower (jsTrim el.textContent)) "join now" = false ∧
     includesSub (jsToLower (jsTrim el.textContent)) "messaging" = false ∧
     lineCount (jsTrim el.textContent) ≤ 100) := by
  unfold acceptDescElem
  dsimp only
  simp only [Bool.and_eq_true, decide_eq_true_eq, Bool.not_eq_true',
    Bool.or_eq_false_iff, decide_eq_false_iff_not, Nat.not_lt]
  tauto

/-- An accepted description candidate of raw length 400. -/
def e400 : Elem :=
  { tag := "DIV", textContent := String.mk (List.replicate 400 'a') }

/-- An accepted description candidate of raw length 5000. -/
def e5000 : Elem :=
  { tag := "SECTION", textContent := String.mk (List.replicate 5000 'b') }

theorem elemTextLen_e400 : elemTextLen e400 = 400 := by
  simp only [elemTextLen, e400, String.length_mk, List.length_replicate]

theorem elemTextLen_e5000 : elemTextLen e5000 = 5000 := by
  simp only [elemTextLen, e5000, String.length_mk, List.length_replicate]

theorem acceptDesc_replicate (n : Nat) (tag : String) (c : Char)
    (hw : c.isWhitespace = false) (h1 : 300 < n) (h2 : n < 20000)
    (hs : ('s' : Char) ≠ c.toLower) (hj : ('j' : Char) ≠ c.toLower)
    (hm : ('m' : Char) ≠ c.toLower) (hnl : c ≠ '\n') :
    acceptDescElem { tag := tag, textContent := String.mk (List.replicate n c) } = true := by
  rw [acceptDescElem_iff]
  have htrim : jsTrim (String.mk (List.replicate n c)) =
      String.mk (List.replicate n c) := jsTrim_replicate n c hw
  dsimp only
  rw [htrim]
  have hlower : jsToLower (String.mk (List.replicate n c)) =
      String.mk (List.replicate n (c.toLower)) := by
    simp [jsToLower, List.map_replicate]
  refine ⟨by simpa using h1, by simpa using h2, ?_, ?_, ?_, ?_⟩
  · rw [hlower]
    simp only [includesSub, decide_eq_false_iff_not]
    exact @not_infix_replicate _ 's' _ (by decide) hs n
  · rw [hlower]
    simp only [includesSub, decide_eq_false_iff_not]
    exact @not_infix_replicate _ 'j' _ (by decide) hj n
  · rw [hlower]
    simp only [includesSub, decide_eq_false_iff_not]
    exact @not_infix_replicate _ 'm' _ (by decide) hm n
  · simp only [lineCount, String.length_mk]
    rw [List.count_replicate]
    simp [hnl]

theorem acceptDesc_e400 : acceptDescElem e400 = true :=
  acceptDesc_replicate 400 "DIV" 'a' (by decide) (by omega) (by omega)
    (by decide) (by decide) (by decide) (by decide)

theorem acceptDesc_e5000 : acceptDescElem e5000 = true :=
  acceptDesc_replicate 5000 "SECTION" 'b' (by decide) (by omega) (by omega)
    (by decide) (by decide) (by decide) (by decide)

theorem descAccepted_pair : descAccepted [e400, e5000] = [e400, e5000] := by
  rw [descAccepted, List.filter_cons_of_pos acceptDesc_e400,
    List.filter_cons_of_pos acceptDesc_e5000, List.filter_nil]

/-- C5: the description fallback accepts a candidate exactly when its
trimmed text length lies strictly between 300 and 20000, it contains no
navigation phrase, and its line count does not exceed the 100-line
page-chrome threshold; among accepted candidates the one with the
greatest raw text length is selected (first in scan order on ties) and
its trimmed text returned; with no accepted candidate the previous
(empty) description is kept.  Two accepted candidates of lengths 400 and
5000 select the 5000-length one. -/
theorem pickDescriptionFallback_spec (pool : List Elem) (prev : String) :
    (∀ el : Elem, acceptDescElem el = true ↔
      (300 < (jsTrim el.textContent).length ∧
       (jsTrim el.textContent).length < 20000 ∧
       includesSub (jsToLower (jsTrim el.textContent)) "sign in" = false ∧
       includesSub (jsToLower (jsTrim el.textContent)) "join now" = false ∧
       includesSub (jsToLower (jsTrim el.textContent)) "messaging" = false ∧
       lineCount (jsTrim el.textContent) ≤ 100)) ∧
    (descAccepted pool = [] → pickDescriptionFallback pool prev = prev) ∧
    (∀ e, e ∈ (descAccepted pool).argmax elemTextLen →
      pickDescriptionFallback pool prev = jsTrim e.textContent ∧
      e ∈ descAccepted pool ∧
      (∀ d ∈ descAccepted pool, elemTextLen d ≤ elemTextLen e) ∧
      (∀ d ∈ descAccepted pool, elemTextLen e ≤ elemTextLen d →
        (descAccepted pool).indexOf e ≤ (descAccepted pool).indexOf d)) ∧
    (acceptDescElem e400 = true ∧ acceptDescElem e5000 = true ∧
     pickDescriptionFallback [e400, e5000] "" = e5000.textContent) := by
  refine ⟨acceptDescElem_iff, ?_, ?_, acceptDesc_e400, acceptDesc_e5000, ?_⟩
  · intro h
    rw [pickDescriptionFallback, descCandidates, h, List.mergeSort_nil,
      List.take_nil]
  · intro e he
    have hh := head_mergeSort_argmax elemTextLen (descAccepted pool)
    have he' : (descAccepted pool).argmax elemTextLen = some e :=
      Option.mem_def.mp he
    rw [he'] at hh
    have hmem : e ∈ descAccepted pool := List.argmax_mem he
    refine ⟨?_, hmem, fun d hd => List.le_of_mem_argmax hd he,
      fun d hd hlen => List.index_of_argmax he hd hlen⟩
    rw [pickDescriptionFallback, descCandidates]
    cases hsort : (descAccepted pool).mergeSort
        (fun a b => decide (elemTextLen b ≤ elemTextLen a)) with
    | nil => rw [hsort] at hh; cases hh
    | cons e0 rest =>
      rw [hsort] at hh
      simp only [List.head?_cons, Option.some.injEq] at hh
      rw [List.take_succ_cons, hh]
  · have hn : decide (elemTextLen e5000 ≤ elemTextLen e400) = false := by
      rw [elemTextLen_e400, elemTextLen_e5000]
      decide
    have hsort := @mergeSort_pair_of_not_le Elem
      (fun a b => decide (elemTextLen b ≤ elemTextLen a))
      (fun x y z hxy hyz => by
        simp only [decide_eq_true_eq] at *
        exact le_trans hyz hxy)
      (fun x y => by
        simp only [Bool.or_eq_true, decide_eq_true_eq]
        exact le_total (elemTextLen y) (elemTextLen x))
      e400 e5000 hn
    rw [pickDescriptionFallback, descCandidates, descAccepted_pair, hsort,
      List.take_succ_cons]
    show jsTrim e5000.textContent = e5000.textContent
    exact jsTrim_replicate 5000 'b' (by decide)

/-- Witness for C5 at the claim's concrete 400/5000 candidate pair. -/
theorem pickDescriptionFallback_spec_witness :
    pickDescriptionFallback [e400, e5000] "" = jsTrim e5000.textContent := by
  have hargmax : (descAccepted [e400, e5000]).argmax elemTextLen = some e5000 := by
    rw [descAccepted_pair, List.argmax_cons, List.argmax_singleton]
    dsimp only
    rw [elemTextLen_e400, elemTextLen_e5000]
    norm_num
  exact ((pickDescriptionFallback_spec [e400, e5000] "").2.2.1 e5000
    (Option.mem_def.mpr hargmax)).1

theorem truncateText_length_le (t : String) (m : Nat) :
    (truncateText t m).length ≤ m + 43 := by
  unfold truncateText
  split_ifs with h1 h2
  · simp
  · omega
  · have hnotice : ("\n\n[Content truncated to fit storage limits]" : String).length = 43 := rfl
    rw [String.length_append, hnotice, String.length_mk, List.length_take]
    omega

theorem saveJobNormalize_description (jobData : StoredJob) (nowMs : Nat) :
    (saveJobNormalize jobData nowMs).description =
      truncateText jobData.description MAX_DESCRIPTION_LENGTH := by
  unfold saveJobNormalize
  dsimp only
  split_ifs with h1 h2 h3 h4 h5 h6 <;>
    simp_all [truncateText]

theorem saveJobNormalize_analysis (jobData : StoredJob) (nowMs : Nat) :
    (saveJobNormalize jobData nowMs).analysis =
      truncateText jobData.analysis MAX_ANALYSIS_LENGTH := by
  unfold saveJobNormalize
  dsimp only
  split_ifs with h1 h2 h3 h4 h5 h6 <;>
    simp_all [truncateText]

/-- C9 (amended: the persisted text fields hold the content cut at the
fixed ceiling with a fixed 43-character truncation notice appended, so
their length is bounded by ceiling + 43 rather than by the ceiling
itself): after every `saveJob` the history holds at most
`MAX_JOBS_COUNT` (100) records; the persisted record carries
`truncateText`-normalized description and analysis fields, and is
either merged into the existing slot with the same id or inserted at
the front with `slice(0, 100)` evicting the oldest records beyond the
cap. -/
theorem saveJob_spec (jobs : List StoredJob) (jobData : StoredJob)
    (now : String) (nowMs : Nat) :
    (saveJob jobs jobData now nowMs).length ≤ MAX_JOBS_COUNT ∧
    (∃ jd : StoredJob,
      jd.description = truncateText jobData.description MAX_DESCRIPTION_LENGTH ∧
      jd.description.length ≤ MAX_DESCRIPTION_LENGTH + 43 ∧
      jd.analysis = truncateText jobData.analysis MAX_ANALYSIS_LENGTH ∧
      jd.analysis.length ≤ MAX_ANALYSIS_LENGTH + 43 ∧
      ((∃ i, saveJob jobs jobData now nowMs =
          (jobs.set i { jd with updatedAt := now }).take MAX_JOBS_COUNT) ∨
       saveJob jobs jobData now nowMs =
         (saveJobNormalize jobData nowMs :: jobs).take MAX_JOBS_COUNT)) := by
  have hsave : saveJob jobs jobData now nowMs =
      match jobs.findIdx?
          (fun job => job.id == (saveJobNormalize jobData nowMs).id) with
      | some i =>
        (jobs.set i
          { saveJobNormalize jobData nowMs with updatedAt := now }).take
          MAX_JOBS_COUNT
      | none => (saveJobNormalize jobData nowMs :: jobs).take MAX_JOBS_COUNT :=
    rfl
  constructor
  · rw [hsave]
    cases jobs.findIdx?
        (fun job => job.id == (saveJobNormalize jobData nowMs).id) with
    | some i => exact List.length_take_le _ _
    | none => exact List.length_take_le _ _
  · refine ⟨saveJobNormalize jobData nowMs,
      saveJobNormalize_description jobData nowMs, ?_,
      saveJobNormalize_analysis jobData nowMs, ?_, ?_⟩
    · rw [saveJobNormalize_description]
      exact truncateText_length_le _ _
    · rw [saveJobNormalize_analysis]
      exact truncateText_length_le _ _
    · rw [hsave]
      cases h : jobs.findIdx?
          (fun job => job.id == (saveJobNormalize jobData nowMs).id) with
      | some i => exact Or.inl ⟨i, rfl⟩
      | none => exact Or.inr rfl

/-- A description one character beyond the 20000-character ceiling. -/
def cLongDescription : String := String.mk (List.replicate 20001 'a')

/-- The job record carrying `cLongDescription`. -/
def cLongJob : StoredJob :=
  { id := "job_1", description := cLongDescription, analysis := "",
    url := "", updatedAt := "" }

/-- Counterexample to C9 as stated: saving a job whose description is
20001 characters long persists a description of 20043 characters (the
20000-character cut plus the 43-character truncation notice), which
exceeds the fixed 20000-character ceiling the claim asserts. -/
theorem saveJob_ceiling_counterexample :
    (saveJob [] cLongJob "2026-01-06T00:00:00Z" 0).map
      (fun j => j.description.length) = [20043] ∧
    20000 < 20043 := by
  refine ⟨?_, by norm_num⟩
  have h1 : cLongJob.description ≠ "" := by
    intro h
    have hlen := congrArg String.length h
    simp only [cLongJob, cLongDescription, String.length_mk,
      List.length_replicate, String.length_empty] at hlen
    omega
  have h2 : ¬(cLongJob.description.length ≤ MAX_DESCRIPTION_LENGTH) := by
    simp only [cLongJob, cLongDescription, String.length_mk,
      List.length_replicate, MAX_DESCRIPTION_LENGTH]
    omega
  have htrunc : truncateText cLongJob.description MAX_DESCRIPTION_LENGTH =
      String.mk ((List.replicate 20001 'a').take MAX_DESCRIPTION_LENGTH) ++
        "\n\n[Content truncated to fit storage limits]" := by
    unfold truncateText
    rw [if_neg h1, if_neg h2]
    rfl
  have hd := saveJobNormalize_description cLongJob 0
  show [(saveJobNormalize cLongJob 0).description.length] = [20043]
  rw [hd, htrunc]
  have hnotice : ("\n\n[Content truncated to fit storage limits]" : String).length = 43 := rfl
  rw [String.length_append, hnotice, String.length_mk, List.length_take,
    List.length_replicate]
  norm_num [MAX_DESCRIPTION_LENGTH]
